import Mathlib

/-!
A verification development for the Composio Tool Router plugin core
(`src/client.ts` and `src/utils.ts`): a shallow embedding of the policy
engine, session cache, account resolver and execution engine, with
theorems about the properties the specification states.

Modelling conventions:
* JavaScript strings are Lean `String`s; `trim`, `toLowerCase`,
  `toUpperCase`, `split`, `includes`, `startsWith` and `Array.join` are
  re-implemented structurally on `List Char` so that every definition
  reduces by `rfl`/`decide` (ASCII inputs; the JS Unicode corner cases of
  `trim`/`\s` are out of scope of the claims).
* `undefined`/optional values are `Option`; JS string truthiness
  (`""` is falsy) is modelled explicitly at each use site.
* The remote broker is a `Broker` record of response functions; session
  creation is an oracle indexed by the number of creations performed so
  far, so a failing first call and a succeeding retry are expressible.
  Pagination is abstracted to a single page (the cursor loops of the
  source aggregate pages; no claim concerns pagination).
* Thrown JS exceptions are `Except.error`; `try/catch` blocks are the
  corresponding `match`es.
-/

namespace Composio

/-! ## String helpers (JS semantics, structural) -/

/-- Bool-valued list prefix test (JS `String.startsWith` on char lists). -/
def prefixCheck : List Char → List Char → Bool
  | [], _ => true
  | _ :: _, [] => false
  | a :: as, b :: bs => a = b && prefixCheck as bs

/-- Bool-valued list infix test (JS `String.includes` on char lists). -/
def infixCheck (needle : List Char) : List Char → Bool
  | [] => prefixCheck needle []
  | c :: rest => prefixCheck needle (c :: rest) || infixCheck needle rest

/-- JS `hay.includes(needle)`. -/
def strContains (hay needle : String) : Bool :=
  infixCheck needle.data hay.data

/-- JS `s.startsWith(pre)`. -/
def strStartsWith (s pre : String) : Bool :=
  prefixCheck pre.data s.data

/-- The whitespace characters JS `trim` and `\s` recognise (ASCII part). -/
def isWsChar (c : Char) : Bool :=
  c = ' ' || c = '\t' || c = '\n' || c = '\r'

/-- JS `s.trim()`. -/
def strTrim (s : String) : String :=
  ⟨((s.data.dropWhile isWsChar).reverse.dropWhile isWsChar).reverse⟩

/-- JS `s.toLowerCase()` (ASCII). -/
def strLower (s : String) : String :=
  ⟨s.data.map Char.toLower⟩

/-- JS `s.toUpperCase()` (ASCII). -/
def strUpper (s : String) : String :=
  ⟨s.data.map Char.toUpper⟩

/-- JS `s.split(sep)` for a one-character separator: empty pieces are kept. -/
def splitCharAux (sep : Char) : List Char → List Char → List String
  | [], acc => [⟨acc.reverse⟩]
  | c :: rest, acc =>
    if c = sep then ⟨acc.reverse⟩ :: splitCharAux sep rest []
    else splitCharAux sep rest (c :: acc)

def splitChar (sep : Char) (s : String) : List String :=
  splitCharAux sep s.data []

/-- JS `Array.join(sep)`. -/
def joinWith (sep : String) : List String → String
  | [] => ""
  | [x] => x
  | x :: xs => x ++ sep ++ joinWith sep xs

/-- Insertion into a ≤-sorted list of strings. -/
def insortStr (s : String) : List String → List String
  | [] => [s]
  | x :: xs => if s ≤ x then s :: x :: xs else x :: insortStr s xs

/-- Insertion sort on strings (JS `Array.sort()` on ASCII strings). -/
def sortStrs (l : List String) : List String :=
  l.foldr insortStr []

/-- First-occurrence deduplication (JS `Array.from(new Set(...))`). -/
def dedupStr (l : List String) : List String :=
  l.foldl (fun acc s => if acc.contains s then acc else acc ++ [s]) []

/-! ## Data model (`src/types.ts`, broker response shapes of `src/client.ts`) -/

/-- A JS runtime value as far as the execution engine inspects one:
`typeof value === "string"` is the only discrimination the source makes
on argument values (`buildRetryArgsFromHint`). -/
inductive JsVal where
  | vstr (s : String)
  | vother (tag : Nat)
deriving DecidableEq, Repr

/-- `Record<string, unknown>` with insertion order (JS object). -/
abbrev Args := List (String × JsVal)

/-- `ToolExecutionResult` of `src/types.ts`. -/
structure ToolExecutionResult where
  success : Bool
  data : Option JsVal
  error : Option String
deriving DecidableEq, Repr

/-- A Tool Router session handle (only its id matters to the core). -/
structure Session where
  sessionId : String
deriving DecidableEq, Repr

/-- The `toolkits` directive of `ToolRouterCreateSessionConfig`. -/
inductive ToolkitsDirective where
  | enable (l : List String)
  | disable (l : List String)
deriving DecidableEq, Repr

/-- `ToolRouterCreateSessionConfig` as `buildSessionConfig` populates it. -/
structure SessionConfig where
  connectedAccounts : Option (List (String × String))
  toolkits : Option ToolkitsDirective
  tags : Option (List String)
  tools : Option (List (String × List String))
deriving DecidableEq, Repr

/-- `ComposioConfig` after the constructor of `ComposioClient` normalized
it; a missing optional list is the empty list (every use in the source
guards with `&& length > 0` / `?.includes`, which agree on `[]`). -/
structure ComposioConfig where
  apiKey : String
  defaultUserId : Option String
  allowedToolkits : List String
  blockedToolkits : List String
  allowedToolSlugs : List String
  blockedToolSlugs : List String
  readOnlyMode : Bool
  sessionTags : List String
deriving DecidableEq, Repr

/-- What `connectedAccounts.get` reports, as the source reads it
(`status`, `toolkit.slug`); the owning user id is also carried by the
broker but the source never reads it. -/
structure AccountFetch where
  statusVal : Option String
  toolkitSlug : Option String
  ownerUserId : Option String
deriving DecidableEq, Repr

/-- One item of a connected-account listing response (raw API shape). -/
structure RawAccount where
  id : String
  toolkitSlug : String
  userId : Option String
  statusVal : Option String
deriving DecidableEq, Repr

/-- `ConnectedAccountSummary` of `src/types.ts` (the fields the claims use). -/
structure ConnectedAccountSummary where
  id : String
  toolkit : String
  userId : Option String
  status : Option String
deriving DecidableEq, Repr

/-- The filters `listConnectedAccounts` sends to a listing endpoint. -/
structure ListQuery where
  toolkits : List String
  userIds : List String
  statuses : List String
deriving DecidableEq, Repr

/-- One entry of `response.data.results` of the multi-execute meta-tool:
a top-level `error` (read by `extractNestedMetaError`) and the nested
per-call `response`. -/
structure MetaItem where
  itemError : Option String
  respSuccessful : Bool
  respData : Option JsVal
  respError : Option String
deriving DecidableEq, Repr

/-- The meta-tool response as `executeMetaTool` normalizes it. -/
structure MetaResponse where
  successful : Bool
  results : Option (List MetaItem)
  error : Option String
deriving DecidableEq, Repr

/-- `client.tools.execute` response. -/
structure DirectResponse where
  successful : Bool
  data : Option JsVal
  error : Option String
deriving DecidableEq, Repr

/-- A remote call the core performs, for frame/effect statements. -/
inductive RemoteCall where
  | createSession (uid : String) (cfg : Option SessionConfig)
  | metaExecute (sessionId toolSlug : String) (args : Args)
  | directExecute (toolSlug uid : String) (accountId : Option String) (args : Args)
  | fetchAccount (id : String)
  | listAccountsRaw (q : ListQuery)
  | listAccountsFallback (q : ListQuery)
  | deleteAccount (id : String)
deriving DecidableEq, Repr

/-- The remote broker: a record of response functions. `createResp` is an
oracle indexed by how many create calls happened before (`Except.error`
is a thrown JS exception); the listing endpoints return a single full
page (pagination abstracted). -/
structure Broker where
  createResp : Nat → Except String Session
  metaResp : String → String → Args → Except String MetaResponse
  directResp : String → String → Option String → Args → Except String DirectResponse
  getAccountResp : String → Except String AccountFetch
  rawListResp : ListQuery → Except String (List RawAccount)
  fallbackListResp : ListQuery → Except String (List RawAccount)
  deleteResp : String → Except String Unit

/-- The mutable state of a `ComposioClient`: the session cache (a JS
`Map` modelled as an insertion-ordered association list) plus the number
of create calls already sent (the oracle index). -/
structure ExecState where
  cache : List (String × Session)
  created : Nat
deriving DecidableEq, Repr

/-- JS `Map.get`. -/
def mapLookup (k : String) : List (String × Session) → Option Session
  | [] => none
  | (k', v) :: t => if k' = k then some v else mapLookup k t

/-- JS `Map.set` (update in place, else append). -/
def mapSet (k : String) (v : Session) : List (String × Session) → List (String × Session)
  | [] => [(k, v)]
  | (k', v') :: t => if k' = k then (k, v) :: t else (k', v') :: mapSet k v t

/-! ## Normalization (`src/utils.ts`) -/

/-- `normalizeToolkitSlug`: `String(value ?? "").trim().toLowerCase()`. -/
def normalizeToolkitSlug (s : String) : String :=
  strLower (strTrim s)

/-- `normalizeToolSlug`: `String(value ?? "").trim().toUpperCase()`. -/
def normalizeToolSlug (s : String) : String :=
  strUpper (strTrim s)

/-- `normalizeToolkitList`: normalize each entry, drop empties, dedup;
`undefined` when nothing remains. -/
def normalizeToolkitList : Option (List String) → Option (List String)
  | none => none
  | some l =>
    if l = [] then none
    else
      let n := (l.map normalizeToolkitSlug).filter (· ≠ "")
      if n = [] then none else some (dedupStr n)

/-- The set of valid `ConnectedAccountStatusFilter` values. -/
def statusFilterValues : List String :=
  ["INITIALIZING", "INITIATED", "ACTIVE", "FAILED", "EXPIRED", "INACTIVE"]

/-- `normalizeStatuses` of `ComposioClient`. -/
def normalizeStatuses : Option (List String) → Option (List String)
  | none => none
  | some l =>
    if l = [] then none
    else
      let n := (l.map (fun s => strUpper (strTrim s))).filter statusFilterValues.contains
      if n = [] then none else some (dedupStr n)

/-! ## Policy engine (`src/client.ts` lines 31-53, 233-279) -/

/-- `DESTRUCTIVE_TOOL_VERBS`. -/
def DESTRUCTIVE_TOOL_VERBS : List String :=
  ["CREATE", "DELETE", "DESTROY", "DISABLE", "DISCONNECT", "ERASE",
   "MODIFY", "PATCH", "POST", "PUT", "REMOVE", "RENAME", "REPLACE",
   "REVOKE", "SEND", "SET", "TRUNCATE", "UNSUBSCRIBE", "UPDATE",
   "UPSERT", "WRITE"]

/-- `isToolkitAllowed`. -/
def isToolkitAllowed (cfg : ComposioConfig) (toolkit : String) : Bool :=
  let n := normalizeToolkitSlug toolkit
  if n = "" then false
  else if cfg.blockedToolkits.contains n then false
  else if cfg.allowedToolkits ≠ [] then cfg.allowedToolkits.contains n
  else true

/-- `isLikelyDestructiveToolSlug`: tokenize the normalized slug on `_`,
drop empty tokens, test membership in the verb list. -/
def isLikelyDestructiveToolSlug (toolSlug : String) : Bool :=
  (((splitChar '_' (normalizeToolSlug toolSlug)).filter (· ≠ ""))).any
    DESTRUCTIVE_TOOL_VERBS.contains

/-- The read-only denial message of `getToolSlugRestrictionError`. -/
def readOnlyBlockMessage (slug : String) : String :=
  "Tool '" ++ slug ++ "' was blocked by readOnlyMode because it appears to modify data. " ++
    "Disable readOnlyMode or add this slug to allowedToolSlugs if execution is intentional."

/-- `getToolSlugRestrictionError`. -/
def getToolSlugRestrictionError (cfg : ComposioConfig) (toolSlug : String) : Option String :=
  let n := normalizeToolSlug toolSlug
  if n = "" then some "tool_slug is required"
  else
    let isExplicitlyAllowed := cfg.allowedToolSlugs.contains n
    if cfg.allowedToolSlugs ≠ [] && !isExplicitlyAllowed then
      some ("Tool '" ++ n ++ "' is not in allowedToolSlugs")
    else if cfg.blockedToolSlugs.contains n then
      some ("Tool '" ++ n ++ "' is blocked by plugin configuration")
    else if cfg.readOnlyMode && !isExplicitlyAllowed && isLikelyDestructiveToolSlug n then
      some (readOnlyBlockMessage n)
    else
      none

/-! ## Scope defaulting (`getUserId`, lines 95-97) -/

/-- JS `a || b` on strings (empty string is falsy). -/
def orFalsyStr (a : Option String) (b : String) : String :=
  match a with
  | some s => if s = "" then b else s
  | none => b

/-- `getUserId`: `overrideUserId || this.config.defaultUserId || "default"`. -/
def getUserId (cfg : ComposioConfig) (overrideUserId : Option String) : String :=
  orFalsyStr overrideUserId (orFalsyStr cfg.defaultUserId "default")

/-! ## Session cache (`makeSessionCacheKey`, `buildSessionConfig`,
`getSession`, `shouldRetrySessionWithoutToolkitFilters`,
`clearUserSessionCache`; lines 102-228) -/

/-- `Object.fromEntries` then `Object.entries`: duplicate keys collapse,
the last value wins, the key keeps its first-occurrence position. -/
def dedupKeysLastWins (l : List (String × String)) : List (String × String) :=
  l.foldl
    (fun acc kv =>
      if acc.any (fun kv' => kv'.1 = kv.1) then
        acc.map (fun kv' => if kv'.1 = kv.1 then (kv'.1, kv.2) else kv')
      else acc ++ [kv])
    []

/-- `normalizeConnectedAccountsOverride`. -/
def normalizeConnectedAccountsOverride :
    Option (List (String × String)) → Option (List (String × String))
  | none => none
  | some l =>
    let n := (l.map (fun kv => (normalizeToolkitSlug kv.1, strTrim kv.2))).filter
      (fun kv => kv.1 ≠ "" && kv.2 ≠ "")
    if n = [] then none else some (dedupKeysLastWins n)

/-- `makeSessionCacheKey` (called by `getSession` on the already
normalized pin map). -/
def makeSessionCacheKey (userId : String) :
    Option (List (String × String)) → String
  | none => "uid:" ++ userId
  | some pins =>
    if pins = [] then "uid:" ++ userId
    else
      "uid:" ++ userId ++ "::ca:" ++
        joinWith "," (sortStrs (pins.map (fun kv => normalizeToolkitSlug kv.1 ++ "=" ++ kv.2)))

/-- `buildToolRouterBlockedToolsConfig`: group block-listed slugs by
their (allowed) toolkit into a disable map. -/
def buildToolRouterBlockedToolsConfig (cfg : ComposioConfig) :
    Option (List (String × List String)) :=
  if cfg.blockedToolSlugs = [] then none
  else
    let byToolkit := cfg.blockedToolSlugs.foldl
      (fun acc slug =>
        let ns := normalizeToolSlug slug
        let tk := normalizeToolkitSlug ((splitChar '_' ns).headD "")
        if tk = "" then acc
        else if !isToolkitAllowed cfg tk then acc
        else
          match acc.find? (fun g => g.1 = tk) with
          | some g =>
            acc.map (fun g' =>
              if g'.1 = tk then (g'.1, if g.2.contains ns then g.2 else g.2 ++ [ns]) else g')
          | none => acc ++ [(tk, [ns])])
      ([] : List (String × List String))
    if byToolkit = [] then none else some byToolkit

/-- `buildSessionConfig`. -/
def buildSessionConfig (cfg : ComposioConfig)
    (connectedAccounts : Option (List (String × String))) : Option SessionConfig :=
  let normalizedCA := normalizeConnectedAccountsOverride connectedAccounts
  let toolkitsDirective : Option ToolkitsDirective :=
    if cfg.allowedToolkits ≠ [] then some (.enable cfg.allowedToolkits)
    else if cfg.blockedToolkits ≠ [] then some (.disable cfg.blockedToolkits)
    else none
  let tagList :=
    if cfg.readOnlyMode && !cfg.sessionTags.contains "readOnlyHint" then
      cfg.sessionTags ++ ["readOnlyHint"]
    else cfg.sessionTags
  let tagsField : Option (List String) := if tagList = [] then none else some tagList
  let toolsField := buildToolRouterBlockedToolsConfig cfg
  let sc : SessionConfig :=
    { connectedAccounts := normalizedCA
      toolkits := toolkitsDirective
      tags := tagsField
      tools := toolsField }
  if sc = { connectedAccounts := none, toolkits := none, tags := none, tools := none } then
    none
  else some sc

/-- The `toolkits` directive of an optional session config (an absent
config carries no directive). -/
def scToolkits : Option SessionConfig → Option ToolkitsDirective
  | none => none
  | some sc => sc.toolkits

/-- The `connectedAccounts` directive of an optional session config. -/
def scConnectedAccounts : Option SessionConfig → Option (List (String × String))
  | none => none
  | some sc => sc.connectedAccounts

/-- The `tags` directive of an optional session config. -/
def scTags : Option SessionConfig → Option (List String)
  | none => none
  | some sc => sc.tags

/-- The `tools` (disable map) directive of an optional session config. -/
def scTools : Option SessionConfig → Option (List (String × List String))
  | none => none
  | some sc => sc.tools

/-- `shouldRetrySessionWithoutToolkitFilters`. -/
def shouldRetrySessionWithoutToolkitFilters (errMsg : String)
    (sessionConfig : Option SessionConfig) : Bool :=
  match sessionConfig with
  | some sc =>
    match sc.toolkits with
    | some (.enable l) =>
      l ≠ [] &&
        (strContains (strLower errMsg) "require auth configs but none exist" &&
          strContains (strLower errMsg) "please specify them in auth_configs")
    | _ => false
  | none => false

/-- The retry configuration: the `toolkits` key removed, `undefined` when
nothing remains. -/
def removeToolkitsDirective : Option SessionConfig → Option SessionConfig
  | none => none
  | some sc =>
    let sc' : SessionConfig := { sc with toolkits := none }
    if sc' = { connectedAccounts := none, toolkits := none, tags := none, tools := none } then
      none
    else some sc'

/-- The output of one `getSession` call. -/
structure SessOut where
  result : Except String Session
  st : ExecState
  calls : List RemoteCall
deriving Repr

/-- `getSession`. -/
def getSession (cfg : ComposioConfig) (bk : Broker) (st : ExecState)
    (userId : String) (connectedAccounts : Option (List (String × String))) : SessOut :=
  let normalizedCA := normalizeConnectedAccountsOverride connectedAccounts
  let key := makeSessionCacheKey userId normalizedCA
  match mapLookup key st.cache with
  | some s => { result := .ok s, st := st, calls := [] }
  | none =>
    let sessionConfig := buildSessionConfig cfg normalizedCA
    match bk.createResp st.created with
    | .ok s =>
      { result := .ok s
        st := { cache := mapSet key s st.cache, created := st.created + 1 }
        calls := [.createSession userId sessionConfig] }
    | .error e =>
      if shouldRetrySessionWithoutToolkitFilters e sessionConfig then
        let retryConfig := removeToolkitsDirective sessionConfig
        match bk.createResp (st.created + 1) with
        | .ok s =>
          { result := .ok s
            st := { cache := mapSet key s st.cache, created := st.created + 2 }
            calls := [.createSession userId sessionConfig, .createSession userId retryConfig] }
        | .error e2 =>
          { result := .error e2
            st := { cache := st.cache, created := st.created + 2 }
            calls := [.createSession userId sessionConfig, .createSession userId retryConfig] }
      else
        { result := .error e
          st := { cache := st.cache, created := st.created + 1 }
          calls := [.createSession userId sessionConfig] }

/-- `clearUserSessionCache`: evict every key starting with `uid:` + scope. -/
def clearUserSessionCache (userId : String)
    (cache : List (String × Session)) : List (String × Session) :=
  cache.filter (fun kv => !strStartsWith kv.1 ("uid:" ++ userId))

/-! ## Connected-account listing (`listConnectedAccounts`,
`listConnectedAccountsRaw`, `listConnectedAccountsFallback`;
lines 856-1012, pagination abstracted to one page) -/

/-- Item processing of `listConnectedAccountsRaw`: normalize the toolkit,
skip empty or disallowed toolkits, keep `user_id`. -/
def processRawItems (cfg : ComposioConfig) (items : List RawAccount) :
    List ConnectedAccountSummary :=
  (items.filterMap (fun item =>
    let tk := normalizeToolkitSlug item.toolkitSlug
    if tk = "" then none
    else if !isToolkitAllowed cfg tk then none
    else some { id := item.id, toolkit := tk, userId := item.userId, status := item.statusVal }))

/-- Item processing of `listConnectedAccountsFallback`: the SDK-normalized
shape carries no `user_id`. -/
def processFallbackItems (cfg : ComposioConfig) (items : List RawAccount) :
    List ConnectedAccountSummary :=
  (items.filterMap (fun item =>
    let tk := normalizeToolkitSlug item.toolkitSlug
    if tk = "" then none
    else if !isToolkitAllowed cfg tk then none
    else some { id := item.id, toolkit := tk, userId := none, status := item.statusVal }))

/-- The output of a listing (or of any throwing sub-operation): a result
plus the remote calls performed. -/
structure ListOut where
  result : Except String (List ConnectedAccountSummary)
  calls : List RemoteCall
deriving Repr

/-- `listConnectedAccounts`: filter options, raw endpoint first, fallback
endpoint on any raw error; a fallback error propagates (is thrown). -/
def listConnectedAccounts (cfg : ComposioConfig) (bk : Broker)
    (toolkitsOpt : Option (List String)) (userIdsOpt : Option (List String))
    (statusesOpt : Option (List String)) : ListOut :=
  let toolkits := (normalizeToolkitList toolkitsOpt).map
    (fun l => l.filter (isToolkitAllowed cfg))
  let userIds := userIdsOpt.map (fun l => (l.map strTrim).filter (· ≠ ""))
  let statuses := normalizeStatuses statusesOpt
  if toolkitsOpt.isSome && (toolkits.getD []) = [] then
    { result := .ok [], calls := [] }
  else
    let q : ListQuery :=
      { toolkits := toolkits.getD [], userIds := userIds.getD [], statuses := statuses.getD [] }
    match bk.rawListResp q with
    | .ok items => { result := .ok (processRawItems cfg items), calls := [.listAccountsRaw q] }
    | .error _ =>
      match bk.fallbackListResp q with
      | .ok items =>
        { result := .ok (processFallbackItems cfg items)
          calls := [.listAccountsRaw q, .listAccountsFallback q] }
      | .error e =>
        { result := .error e, calls := [.listAccountsRaw q, .listAccountsFallback q] }

/-! ## Account resolver (`resolveConnectedAccountForExecution`,
lines 658-710) -/

/-- The resolver's outcome: a JS exception (`thrown`), a `{ error }`
result, or a `{ connectedAccountId? }` result. -/
inductive ResolveOutcome where
  | thrown (e : String)
  | err (msg : String)
  | ok (accountId : Option String)
deriving DecidableEq, Repr

/-- The ambiguity error message (lines 704-709). -/
def multipleAccountsMessage (toolkit userId : String) (ids : List String) : String :=
  "Multiple ACTIVE '" ++ toolkit ++ "' accounts found for user_id '" ++ userId ++
    "': " ++ joinWith ", " ids ++ ". Please provide connected_account_id to choose one explicitly."

/-- `resolveConnectedAccountForExecution`. -/
def resolveConnectedAccountForExecution (cfg : ComposioConfig) (bk : Broker)
    (toolkit userId : String) (connectedAccountId : Option String) :
    ResolveOutcome × List RemoteCall :=
  let tk := normalizeToolkitSlug toolkit
  let explicitId := (connectedAccountId.map strTrim).getD ""
  if explicitId ≠ "" then
    match bk.getAccountResp explicitId with
    | .error e =>
      (.err ("Invalid connected_account_id '" ++ explicitId ++ "': " ++ e),
        [.fetchAccount explicitId])
    | .ok account =>
      let accountToolkit := normalizeToolkitSlug (account.toolkitSlug.getD "")
      let accountStatus := strUpper (account.statusVal.getD "")
      if accountToolkit ≠ "" && accountToolkit ≠ tk then
        (.err ("Connected account '" ++ explicitId ++ "' belongs to toolkit '" ++
            accountToolkit ++ "', but tool '" ++ tk ++ "' was requested."),
          [.fetchAccount explicitId])
      else if accountStatus ≠ "" && accountStatus ≠ "ACTIVE" then
        (.err ("Connected account '" ++ explicitId ++ "' is '" ++ accountStatus ++
            "', not ACTIVE."),
          [.fetchAccount explicitId])
      else
        (.ok (some explicitId), [.fetchAccount explicitId])
  else
    let listed := listConnectedAccounts cfg bk (some [tk]) (some [userId]) (some ["ACTIVE"])
    match listed.result with
    | .error e => (.thrown e, listed.calls)
    | .ok activeAccounts =>
      if activeAccounts.length ≤ 1 then
        (.ok ((activeAccounts.head?).map (fun a => a.id)), listed.calls)
      else
        (.err (multipleAccountsMessage tk userId (activeAccounts.map (fun a => a.id))),
          listed.calls)

/-! ## Error-text heuristics (`buildCombinedErrorText`,
`extractNestedMetaError`, `shouldFallbackToDirectExecution`,
`shouldRetryFromServerHint`, `extractServerHintLiteral`,
`buildRetryArgsFromHint`, `extractSingleMissingField`; lines 576-656) -/

/-- `extractNestedMetaError`: `String(metaData?.results?.[0]?.error || "")`. -/
def extractNestedMetaError : Option (List MetaItem) → String
  | none => ""
  | some results =>
    match results.head? with
    | none => ""
    | some item => item.itemError.getD ""

/-- `buildCombinedErrorText`: trim the pieces, drop empties, join with a
newline. -/
def buildCombinedErrorText (metaError : Option String)
    (results : Option (List MetaItem)) (additionalError : Option String) : String :=
  joinWith "\n"
    (([metaError.getD "", extractNestedMetaError results, additionalError.getD ""].map
        strTrim).filter (· ≠ ""))

/-- `shouldFallbackToDirectExecution`. -/
def shouldFallbackToDirectExecution (uid : String) (metaError : Option String)
    (results : Option (List MetaItem)) : Bool :=
  if uid = "default" then false
  else
    strContains (strLower (buildCombinedErrorText metaError results none))
      "no connected account found for entity id default"

/-- `shouldRetryFromServerHint`. -/
def shouldRetryFromServerHint (errorText : String) : Bool :=
  strContains (strLower errorText) "only allowed to access" ||
    strContains (strLower errorText) "allowed to access the"

/-- The content before the next backtick, `none` when no backtick follows. -/
def takeUntilBacktick : List Char → Option (List Char)
  | [] => none
  | c :: rest => if c = '`' then some [] else (takeUntilBacktick rest).map (c :: ·)

/-- The first match of the regex `` `([^`]+)` `` (the capture group):
at each backtick, a nonempty run up to a closing backtick; on an empty run
the engine restarts at the next position. -/
def firstBacktickLiteral : List Char → Option String
  | [] => none
  | c :: rest =>
    if c = '`' then
      match takeUntilBacktick rest with
      | some content => if content = [] then firstBacktickLiteral rest else some ⟨content⟩
      | none => none
    else firstBacktickLiteral rest

/-- `extractServerHintLiteral`: first backtick-quoted literal, trimmed,
rejected when empty, longer than 64 characters, or containing whitespace. -/
def extractServerHintLiteral (errorText : String) : Option String :=
  match firstBacktickLiteral errorText.data with
  | none => none
  | some raw =>
    let literal := strTrim raw
    if literal = "" then none
    else if 64 < literal.data.length then none
    else if literal.data.any isWsChar then none
    else some literal

/-- The content before the next backtick together with what follows the
backtick (for counting all matches of the hint regex). -/
def breakBacktick : List Char → Option (List Char × List Char)
  | [] => none
  | c :: rest =>
    if c = '`' then some ([], rest)
    else (breakBacktick rest).map (fun p => (c :: p.1, p.2))

/-- Fuelled worker for `countBacktickLiterals` (each step consumes at
least one character, so `l.length` fuel is enough). -/
def countBacktickAux : Nat → List Char → Nat
  | 0, _ => 0
  | _ + 1, [] => 0
  | fuel + 1, c :: rest =>
    if c = '`' then
      match breakBacktick rest with
      | some (content, rem) =>
        if content = [] then countBacktickAux fuel rest
        else 1 + countBacktickAux fuel rem
      | none => 0
    else countBacktickAux fuel rest

/-- How many matches the regex `` `([^`]+)` `` finds globally in a text
(a formalization device for stating claims about literal counts; not a
source function). -/
def countBacktickLiterals (l : List Char) : Nat :=
  countBacktickAux l.length l

/-- Case-insensitive prefix match of an (already lowercase) pattern,
returning the remainder of the text. -/
def ciMatchPrefix : List Char → List Char → Option (List Char)
  | [], t => some t
  | _ :: _, [] => none
  | p :: ps, c :: cs => if c.toLower = p then ciMatchPrefix ps cs else none

/-- The content before the next closing brace, `none` when no closing
brace follows. -/
def takeUntilCloseBrace : List Char → Option (List Char)
  | [] => none
  | c :: rest =>
    if c = '\x7d' then some []
    else (takeUntilCloseBrace rest).map (c :: ·)

/-- A match of `following fields are missing:\s*\x7b([^\x7d]+)\x7d` (case
insensitive) anchored at the head of the text: the capture group. -/
def missingBlockAt (t : List Char) : Option (List Char) :=
  match ciMatchPrefix "following fields are missing:".data t with
  | none => none
  | some rest =>
    match rest.dropWhile isWsChar with
    | [] => none
    | c :: rest2 =>
      if c = '\x7b' then
        match takeUntilCloseBrace rest2 with
        | some content => if content = [] then none else some content
        | none => none
      else none

/-- The first match of the missing-fields regex anywhere in the text. -/
def findMissingBlock : List Char → Option (List Char)
  | [] => none
  | c :: rest =>
    match missingBlockAt (c :: rest) with
    | some content => some content
    | none => findMissingBlock rest

/-- `part.trim().replace(/^['"]|['"]$/g, "")`: one leading and one
trailing quote character removed. -/
def stripQuoteChars (s : String) : String :=
  let l :=
    match s.data with
    | c :: rest => if c = '\'' || c = '"' then rest else s.data
    | [] => []
  let l2 :=
    match l.reverse with
    | c :: rest => if c = '\'' || c = '"' then rest.reverse else l
    | [] => []
  ⟨l2⟩

/-- `extractSingleMissingField`. -/
def extractSingleMissingField (errorText : String) : Option String :=
  match findMissingBlock errorText.data with
  | none => none
  | some raw =>
    let fields :=
      ((splitChar ',' ⟨raw⟩).map (fun part => stripQuoteChars (strTrim part))).filter (· ≠ "")
    match fields with
    | [f] => some f
    | _ => none

/-- JS `{ ...args, [field]: v }`: replace in place, else append. -/
def setArg (args : Args) (field : String) (v : JsVal) : Args :=
  if args.any (fun kv => kv.1 = field) then
    args.map (fun kv => if kv.1 = field then (kv.1, v) else kv)
  else args ++ [(field, v)]

/-- The `stringEntries` of `buildRetryArgsFromHint`: the fields whose
value is a string (`typeof value === "string"`). -/
def stringEntriesOf (args : Args) : Args :=
  args.filter (fun kv => match kv.2 with | .vstr _ => true | _ => false)

/-- `buildRetryArgsFromHint`. -/
def buildRetryArgsFromHint (args : Args) (errorText hint : String) : Option Args :=
  match stringEntriesOf args with
  | [kv] =>
    match kv.2 with
    | .vstr current => if current = hint then none else some (setArg args kv.1 (.vstr hint))
    | _ => none
  | [] =>
    match extractSingleMissingField errorText with
    | none => none
    | some missing => some (setArg args missing (.vstr hint))
  | _ => none

/-! ## Execution engine (`executeDirectTool`, `tryDirectExecutionFallback`,
`tryHintedIdentifierRetry`, `tryExecutionRecovery`, `executeTool`;
lines 385-574) -/

/-- `executeDirectTool`: the lower-level execute endpoint, never throws. -/
def executeDirectTool (bk : Broker) (toolSlug userId : String) (args : Args)
    (connectedAccountId : Option String) : ToolExecutionResult × List RemoteCall :=
  match bk.directResp toolSlug userId connectedAccountId args with
  | .ok r =>
    ({ success := r.successful, data := r.data, error := r.error },
      [.directExecute toolSlug userId connectedAccountId args])
  | .error e =>
    ({ success := false, data := none, error := some e },
      [.directExecute toolSlug userId connectedAccountId args])

/-- `tryDirectExecutionFallback`. -/
def tryDirectExecutionFallback (bk : Broker) (uid toolSlug : String) (args : Args)
    (connectedAccountId : Option String) (metaError : Option String)
    (results : Option (List MetaItem)) : Option ToolExecutionResult × List RemoteCall :=
  if !shouldFallbackToDirectExecution uid metaError results then (none, [])
  else
    let (r, calls) := executeDirectTool bk toolSlug uid args connectedAccountId
    (some r, calls)

/-- `tryHintedIdentifierRetry`. -/
def tryHintedIdentifierRetry (bk : Broker) (uid toolSlug : String) (args : Args)
    (connectedAccountId : Option String) (metaError : Option String)
    (results : Option (List MetaItem)) (additionalError : Option String) :
    Option ToolExecutionResult × List RemoteCall :=
  let combined := buildCombinedErrorText metaError results additionalError
  if !shouldRetryFromServerHint combined then (none, [])
  else
    match extractServerHintLiteral combined with
    | none => (none, [])
    | some hint =>
      match buildRetryArgsFromHint args combined hint with
      | none => (none, [])
      | some retryArgs =>
        let (r, calls) := executeDirectTool bk toolSlug uid retryArgs connectedAccountId
        (some r, calls)

/-- `tryExecutionRecovery`: direct fallback first, then the hinted retry
fed with the fallback's error text. -/
def tryExecutionRecovery (bk : Broker) (uid toolSlug : String) (args : Args)
    (connectedAccountId : Option String) (metaError : Option String)
    (results : Option (List MetaItem)) : Option ToolExecutionResult × List RemoteCall :=
  let (directFallback, calls1) :=
    tryDirectExecutionFallback bk uid toolSlug args connectedAccountId metaError results
  match directFallback with
  | some r =>
    if r.success then (some r, calls1)
    else
      let (hinted, calls2) :=
        tryHintedIdentifierRetry bk uid toolSlug args connectedAccountId metaError results
          r.error
      match hinted with
      | some r2 => (some r2, calls1 ++ calls2)
      | none => (directFallback, calls1 ++ calls2)
  | none =>
    let (hinted, calls2) :=
      tryHintedIdentifierRetry bk uid toolSlug args connectedAccountId metaError results none
    match hinted with
    | some r2 => (some r2, calls1 ++ calls2)
    | none => (directFallback, calls1 ++ calls2)

/-- The output of one public `executeTool` call: `Except.error` is a JS
exception escaping the public boundary. -/
structure ExecOut where
  result : Except String ToolExecutionResult
  st : ExecState
  calls : List RemoteCall
deriving Repr

/-- The meta-execute phase of `executeTool` (the body of its `try` block):
total, every path yields a `ToolExecutionResult`. -/
def executeToolMetaPhase (bk : Broker) (uid nslug : String) (args : Args)
    (accountId : Option String) (session : Session) :
    ToolExecutionResult × List RemoteCall :=
  match bk.metaResp session.sessionId nslug args with
  | .error e =>
    ({ success := false, data := none, error := some e },
      [.metaExecute session.sessionId nslug args])
  | .ok response =>
    let metaCall := [RemoteCall.metaExecute session.sessionId nslug args]
    if !response.successful then
      let (recovered, recCalls) :=
        tryExecutionRecovery bk uid nslug args accountId response.error response.results
      match recovered with
      | some r => (r, metaCall ++ recCalls)
      | none =>
        ({ success := false, data := none, error := some (orFalsyStr response.error "Execution failed") },
          metaCall ++ recCalls)
    else
      match (response.results.getD []).head? with
      | none =>
        ({ success := false, data := none, error := some "No result returned" }, metaCall)
      | some item =>
        if !item.respSuccessful then
          let (recovered, recCalls) :=
            tryExecutionRecovery bk uid nslug args accountId item.respError response.results
          match recovered with
          | some r => (r, metaCall ++ recCalls)
          | none =>
            ({ success := item.respSuccessful, data := item.respData, error := item.respError },
              metaCall ++ recCalls)
        else
          ({ success := item.respSuccessful, data := item.respData, error := item.respError },
            metaCall)

/-- `executeTool` (lines 385-481). The `try` block of the source covers
exactly the meta-execute phase; policy failures and resolver `{ error }`s
are `Except.ok` results with `success := false`, while a resolver throw
or a session-creation throw escapes as `Except.error`. -/
def executeTool (cfg : ComposioConfig) (bk : Broker) (st : ExecState)
    (toolSlug : String) (args : Args) (userIdOpt : Option String)
    (connectedAccountIdOpt : Option String) : ExecOut :=
  let uid := getUserId cfg userIdOpt
  let nslug := normalizeToolSlug toolSlug
  match getToolSlugRestrictionError cfg nslug with
  | some e => { result := .ok { success := false, data := none, error := some e }, st := st, calls := [] }
  | none =>
    let toolkit := normalizeToolkitSlug ((splitChar '_' nslug).headD "")
    if !isToolkitAllowed cfg toolkit then
      { result := .ok
          { success := false, data := none
            error := some ("Toolkit '" ++ toolkit ++ "' is not allowed by plugin configuration") }
        st := st, calls := [] }
    else
      let (res, rcalls) :=
        resolveConnectedAccountForExecution cfg bk toolkit uid connectedAccountIdOpt
      match res with
      | .thrown e => { result := .error e, st := st, calls := rcalls }
      | .err msg =>
        { result := .ok { success := false, data := none, error := some msg }
          st := st, calls := rcalls }
      | .ok accountId =>
        let pins : Option (List (String × String)) :=
          match accountId with
          | some id => if id ≠ "" then some [(toolkit, id)] else none
          | none => none
        let sOut := getSession cfg bk st uid pins
        match sOut.result with
        | .error e => { result := .error e, st := sOut.st, calls := rcalls ++ sOut.calls }
        | .ok session =>
          let (r, mcalls) := executeToolMetaPhase bk uid nslug args accountId session
          { result := .ok r, st := sOut.st, calls := rcalls ++ sOut.calls ++ mcalls }

/-! ## Disconnect (`disconnectToolkit`, lines 1090-1141) -/

/-- The result type of `disconnectToolkit`. -/
structure DisconnectResult where
  success : Bool
  error : Option String
deriving DecidableEq, Repr

/-- The disconnect ambiguity message (lines 1120-1126). -/
def disconnectAmbiguityMessage (toolkit userId : String) (ids : List String) : String :=
  "Multiple ACTIVE '" ++ toolkit ++ "' accounts found for user_id '" ++ userId ++
    "': " ++ joinWith ", " ids ++ ". Use the dashboard to disconnect a specific account."

/-- `disconnectToolkit`: its `try` block covers the listing, so a listing
throw is caught into a failure result; on success the session cache is
cleared for the scope. -/
def disconnectToolkit (cfg : ComposioConfig) (bk : Broker) (st : ExecState)
    (toolkit : String) (userIdOpt : Option String) :
    DisconnectResult × ExecState × List RemoteCall :=
  let uid := getUserId cfg userIdOpt
  let slug := normalizeToolkitSlug toolkit
  if slug = "" then
    ({ success := false, error := some "Toolkit is required" }, st, [])
  else if cfg.readOnlyMode then
    ({ success := false, error := some "Disconnect is blocked by readOnlyMode." }, st, [])
  else
    let listed := listConnectedAccounts cfg bk (some [slug]) (some [uid]) (some ["ACTIVE"])
    match listed.result with
    | .error e => ({ success := false, error := some e }, st, listed.calls)
    | .ok activeAccounts =>
      match activeAccounts with
      | [] =>
        ({ success := false, error := some ("No connection found for toolkit '" ++ slug ++ "'") },
          st, listed.calls)
      | [account] =>
        match bk.deleteResp account.id with
        | .error e =>
          ({ success := false, error := some e }, st, listed.calls ++ [.deleteAccount account.id])
        | .ok _ =>
          ({ success := true, error := none },
            { cache := clearUserSessionCache uid st.cache, created := st.created },
            listed.calls ++ [.deleteAccount account.id])
      | _ =>
        ({ success := false
           error := some (disconnectAmbiguityMessage slug uid (activeAccounts.map (fun a => a.id))) },
          st, listed.calls)

/-! ## Session-cache run model (for the cache claims) -/

/-- The cache key a `getSession` request produces (the source normalizes
the pin map before `makeSessionCacheKey`). -/
def sessionRequestKey (uid : String) (pins : Option (List (String × String))) : String :=
  makeSessionCacheKey uid (normalizeConnectedAccountsOverride pins)

/-- Two pin maps are the same up to normalization and pin order: their
normalized forms are both absent or permutations of one another. -/
def PinsEquiv (p1 p2 : Option (List (String × String))) : Prop :=
  match normalizeConnectedAccountsOverride p1, normalizeConnectedAccountsOverride p2 with
  | none, none => True
  | some l1, some l2 => l1.Perm l2
  | _, _ => False

/-- A run of `getSession` requests; the log records, for each invocation
that reached the broker (`calls ≠ []`), its cache key and whether it
ended in a session (one successful creation — within one invocation at
most the final create call succeeds). -/
def runGetSessions (cfg : ComposioConfig) (bk : Broker) :
    ExecState → List (String × Option (List (String × String))) → List (String × Bool)
  | _, [] => []
  | st, (uid, pins) :: rest =>
    let out := getSession cfg bk st uid pins
    (if out.calls = [] then [] else [(sessionRequestKey uid pins, out.result.isOk)]) ++
      runGetSessions cfg bk out.st rest

/-- How many run-log entries are successful creations for the key `k`. -/
def successfulCreationsFor (k : String) (log : List (String × Bool)) : Nat :=
  log.countP (fun e => e.1 = k && e.2)

/-! ## Concrete fixtures (for witnesses and counterexamples) -/

/-- A plugin configuration with no filters and no default scope. -/
def plainConfig : ComposioConfig :=
  { apiKey := "test-key", defaultUserId := none, allowedToolkits := [],
    blockedToolkits := [], allowedToolSlugs := [], blockedToolSlugs := [],
    readOnlyMode := false, sessionTags := [] }

/-- A broker where every endpoint succeeds (the mock of the test suite). -/
def okBroker : Broker :=
  { createResp := fun _ => .ok { sessionId := "test-session-123" }
    metaResp := fun _ _ _ => .ok
      { successful := true
        results := some
          [{ itemError := none, respSuccessful := true
             respData := some (.vstr "messages"), respError := none }]
        error := none }
    directResp := fun _ _ _ _ => .ok
      { successful := true, data := some (.vstr "direct"), error := none }
    getAccountResp := fun _ => .ok
      { statusVal := some "ACTIVE", toolkitSlug := some "gmail", ownerUserId := none }
    rawListResp := fun _ => .ok []
    fallbackListResp := fun _ => .ok []
    deleteResp := fun _ => .ok () }

/-- The empty client state. -/
def emptyState : ExecState := { cache := [], created := 0 }

/-- A broker whose session creation throws. -/
def throwCreateBroker : Broker :=
  { okBroker with createResp := fun _ => .error "session create boom" }

/-- A broker reporting an explicit account as ACTIVE, of toolkit gmail,
owned by a scope different from any caller of the fixtures. -/
def foreignOwnerAccount : AccountFetch :=
  { statusVal := some "ACTIVE", toolkitSlug := some "gmail"
    ownerUserId := some "mallory" }

def foreignOwnerBroker : Broker :=
  { okBroker with getAccountResp := fun _ => .ok foreignOwnerAccount }

/-- One ACTIVE gmail account of the scope `alice`. -/
def gmailAccountItem : RawAccount :=
  { id := "ca_gmail", toolkitSlug := "gmail", userId := some "alice"
    statusVal := some "ACTIVE" }

/-- A broker listing exactly one ACTIVE gmail account for any query. -/
def oneAccountBroker : Broker :=
  { okBroker with rawListResp := fun _ => .ok [gmailAccountItem] }

def gmailAccountOne : RawAccount :=
  { id := "ca_1", toolkitSlug := "gmail", userId := some "alice"
    statusVal := some "ACTIVE" }

def gmailAccountTwo : RawAccount :=
  { id := "ca_2", toolkitSlug := "gmail", userId := some "alice"
    statusVal := some "ACTIVE" }

/-- A broker listing two ACTIVE gmail accounts for any query. -/
def twoAccountBroker : Broker :=
  { okBroker with rawListResp := fun _ => .ok [gmailAccountOne, gmailAccountTwo] }

/-- The auth-config error of the retry-without-filters test. -/
def authConfigsError : String :=
  "The following toolkits require auth configs but none exist and cannot be auto-created: posthog. Please specify them in auth_configs."

/-- A configuration with a toolkit allow-list (producing an enable
directive in the session config). -/
def retryCfg : ComposioConfig :=
  { plainConfig with allowedToolkits := ["gmail", "posthog"] }

/-- A broker whose first session creation fails with the auth-config
error and whose second succeeds. -/
def retryBroker : Broker :=
  { okBroker with createResp := fun n =>
      if n = 0 then .error authConfigsError else .ok { sessionId := "test-session-retry" } }

/-- A configuration where the allow- and block-list overlap. -/
def filterConfig : ComposioConfig :=
  { plainConfig with allowedToolkits := ["gmail", "github"], blockedToolkits := ["github"] }

/-- Read-only mode, no tool allow-list. -/
def readOnlyConfig : ComposioConfig :=
  { plainConfig with readOnlyMode := true }

/-- Read-only mode with an allow-list that excludes the probed slug. -/
def readOnlyAllowConfig : ComposioConfig :=
  { plainConfig with readOnlyMode := true, allowedToolSlugs := ["GMAIL_FETCH_EMAILS"] }

/-- The per-call error of the hinted-retry test (one backtick literal). -/
def posthogHintText : String :=
  "As a non-staff user you're only allowed to access the `@me` user instance."

/-- An error text of the same phrasing holding two backtick literals. -/
def doubleHintText : String :=
  "you are only allowed to access the `@me` user instance, not `other-user`."

/-! ## Helper lemmas -/

theorem prefixCheck_iff (n h : List Char) :
    prefixCheck n h = true ↔ n <+: h := by
  induction n generalizing h with
  | nil => simp [prefixCheck]
  | cons a as ih =>
    cases h with
    | nil =>
      simp only [prefixCheck, Bool.false_eq_true, false_iff]
      intro hp
      exact List.cons_ne_nil a as (List.prefix_nil.mp hp)
    | cons b bs =>
      simp only [prefixCheck, Bool.and_eq_true, decide_eq_true_eq, ih]
      constructor
      · rintro ⟨rfl, t, ht⟩
        exact ⟨t, by simp [ht]⟩
      · rintro ⟨t, ht⟩
        injection ht with h1 h2
        exact ⟨h1, t, h2⟩

theorem infixCheck_iff (n h : List Char) :
    infixCheck n h = true ↔ n <:+: h := by
  induction h with
  | nil => simp [infixCheck, prefixCheck_iff, List.infix_nil, List.prefix_nil]
  | cons c rest ih =>
    simp [infixCheck, prefixCheck_iff, ih, List.infix_cons_iff]

theorem strContains_iff (hay needle : String) :
    strContains hay needle = true ↔ needle.data <:+: hay.data := by
  unfold strContains
  exact infixCheck_iff needle.data hay.data

theorem strContains_append_right (a b needle : String)
    (h : strContains b needle = true) : strContains (a ++ b) needle = true := by
  rw [strContains_iff] at h ⊢
  rw [String.data_append]
  exact h.trans (List.suffix_append a.data b.data).isInfix

theorem strContains_middle (p mid s needle : String)
    (h : strContains mid needle = true) :
    strContains (p ++ mid ++ s) needle = true := by
  rw [strContains_iff] at h ⊢
  rw [String.data_append, String.data_append]
  exact h.trans (List.infix_append p.data mid.data s.data)

theorem joinWith_substring_of_mem (sep : String) {s : String} {l : List String}
    (h : s ∈ l) : s.data <:+: (joinWith sep l).data := by
  induction l with
  | nil => cases h
  | cons x xs ih =>
    cases xs with
    | nil =>
      rcases List.mem_singleton.mp h with rfl
      exact List.infix_refl s.data
    | cons y ys =>
      rcases List.mem_cons.mp h with rfl | hmem
      · show s.data <:+: (s ++ sep ++ joinWith sep (y :: ys)).data
        rw [String.data_append, String.data_append]
        exact ((List.prefix_append s.data sep.data).trans
          (List.prefix_append (s.data ++ sep.data) _)).isInfix
      · show s.data <:+: (x ++ sep ++ joinWith sep (y :: ys)).data
        rw [String.data_append, String.data_append]
        exact (ih hmem).trans (List.suffix_append _ _).isInfix

theorem insortStr_perm (s : String) (l : List String) : (insortStr s l).Perm (s :: l) := by
  induction l with
  | nil => exact List.Perm.refl _
  | cons x xs ih =>
    unfold insortStr
    by_cases hsx : s ≤ x
    · rw [if_pos hsx]
    · rw [if_neg hsx]
      exact (ih.cons x).trans (List.Perm.swap s x xs)

theorem sortStrs_perm (l : List String) : (sortStrs l).Perm l := by
  induction l with
  | nil => exact List.Perm.refl _
  | cons x xs ih =>
    show (insortStr x (sortStrs xs)).Perm (x :: xs)
    exact (insortStr_perm x (sortStrs xs)).trans (ih.cons x)

theorem insortStr_sorted (s : String) (l : List String)
    (h : l.Sorted (· ≤ ·)) : (insortStr s l).Sorted (· ≤ ·) := by
  induction l with
  | nil => simp [insortStr]
  | cons x xs ih =>
    rcases List.sorted_cons.mp h with ⟨hx, hxs⟩
    unfold insortStr
    by_cases hsx : s ≤ x
    · rw [if_pos hsx]
      refine List.sorted_cons.mpr ⟨?_, h⟩
      intro b hb
      rcases List.mem_cons.mp hb with rfl | hb
      · exact hsx
      · exact le_trans hsx (hx b hb)
    · rw [if_neg hsx]
      refine List.sorted_cons.mpr ⟨?_, ih hxs⟩
      intro b hb
      rcases List.mem_cons.mp ((insortStr_perm s xs).mem_iff.mp hb) with rfl | hb
      · exact le_of_not_le hsx
      · exact hx b hb

theorem sortStrs_sorted (l : List String) : (sortStrs l).Sorted (· ≤ ·) := by
  induction l with
  | nil => simp [sortStrs]
  | cons x xs ih => exact insortStr_sorted x (sortStrs xs) ih

theorem sortStrs_eq_of_perm {l1 l2 : List String} (h : l1.Perm l2) :
    sortStrs l1 = sortStrs l2 :=
  List.eq_of_perm_of_sorted ((sortStrs_perm l1).trans (h.trans (sortStrs_perm l2).symm))
    (sortStrs_sorted l1) (sortStrs_sorted l2)

theorem sessionRequestKey_equiv (uid : String)
    {p1 p2 : Option (List (String × String))} (h : PinsEquiv p1 p2) :
    sessionRequestKey uid p1 = sessionRequestKey uid p2 := by
  unfold PinsEquiv at h
  unfold sessionRequestKey
  cases hn1 : normalizeConnectedAccountsOverride p1 with
  | none =>
    cases hn2 : normalizeConnectedAccountsOverride p2 with
    | none => rfl
    | some l2 => rw [hn1, hn2] at h; exact absurd h (by simp)
  | some l1 =>
    cases hn2 : normalizeConnectedAccountsOverride p2 with
    | none => rw [hn1, hn2] at h; exact absurd h (by simp)
    | some l2 =>
      rw [hn1, hn2] at h
      dsimp only at h
      unfold makeSessionCacheKey
      by_cases h1 : l1 = []
      · have h2 : l2 = [] := by
          subst h1
          exact h.symm.eq_nil
        dsimp only
        rw [if_pos h1, if_pos h2]
      · have h2 : l2 ≠ [] := by
          intro hc
          subst hc
          exact h1 h.eq_nil
        dsimp only
        rw [if_neg h1, if_neg h2]
        rw [sortStrs_eq_of_perm (h.map _)]

theorem mapLookup_mapSet (k k2 : String) (v : Session) (c : List (String × Session)) :
    mapLookup k (mapSet k2 v c) = if k2 = k then some v else mapLookup k c := by
  induction c with
  | nil => by_cases hk : k2 = k <;> simp [mapSet, mapLookup, hk]
  | cons kv t ih =>
    obtain ⟨a, b⟩ := kv
    unfold mapSet
    by_cases h2 : a = k2
    · rw [if_pos h2]
      by_cases hk : k2 = k
      · simp [mapLookup, hk]
      · have hak : ¬a = k := fun hh => hk (h2.symm.trans hh)
        simp [mapLookup, hk, hak]
    · rw [if_neg h2]
      by_cases hak : a = k
      · have hk2k : ¬k2 = k := fun hh => h2 (hak.trans hh.symm)
        simp [mapLookup, hak, hk2k]
      · simp [mapLookup, hak, ih]

theorem getSession_eq (cfg : ComposioConfig) (bk : Broker) (st : ExecState)
    (uid : String) (pins : Option (List (String × String))) :
    getSession cfg bk st uid pins =
      (match mapLookup (sessionRequestKey uid pins) st.cache with
       | some s => { result := .ok s, st := st, calls := [] }
       | none =>
        let sessionConfig := buildSessionConfig cfg (normalizeConnectedAccountsOverride pins)
        match bk.createResp st.created with
        | .ok s =>
          { result := .ok s
            st := { cache := mapSet (sessionRequestKey uid pins) s st.cache
                    created := st.created + 1 }
            calls := [.createSession uid sessionConfig] }
        | .error e =>
          if shouldRetrySessionWithoutToolkitFilters e sessionConfig then
            match bk.createResp (st.created + 1) with
            | .ok s =>
              { result := .ok s
                st := { cache := mapSet (sessionRequestKey uid pins) s st.cache
                        created := st.created + 2 }
                calls := [.createSession uid sessionConfig,
                  .createSession uid (removeToolkitsDirective sessionConfig)] }
            | .error e2 =>
              { result := .error e2
                st := { cache := st.cache, created := st.created + 2 }
                calls := [.createSession uid sessionConfig,
                  .createSession uid (removeToolkitsDirective sessionConfig)] }
          else
            { result := .error e
              st := { cache := st.cache, created := st.created + 1 }
              calls := [.createSession uid sessionConfig] }) := rfl

theorem getSession_hit (cfg : ComposioConfig) (bk : Broker) (st : ExecState)
    (uid : String) (pins : Option (List (String × String))) (s : Session)
    (h : mapLookup (sessionRequestKey uid pins) st.cache = some s) :
    getSession cfg bk st uid pins = { result := .ok s, st := st, calls := [] } := by
  rw [getSession_eq, h]

theorem getSession_ok_cached (cfg : ComposioConfig) (bk : Broker) (st : ExecState)
    (uid : String) (pins : Option (List (String × String))) (s : Session)
    (hs : (getSession cfg bk st uid pins).result = .ok s) :
    mapLookup (sessionRequestKey uid pins) (getSession cfg bk st uid pins).st.cache = some s := by
  rw [getSession_eq] at hs ⊢
  cases hl : mapLookup (sessionRequestKey uid pins) st.cache with
  | some s0 =>
    rw [hl] at hs
    dsimp only at hs ⊢
    injection hs with hs
    rw [← hs]
    exact hl
  | none =>
    rw [hl] at hs
    dsimp only at hs ⊢
    cases hc : bk.createResp st.created with
    | ok s1 =>
      rw [hc] at hs
      dsimp only at hs ⊢
      injection hs with hs
      rw [mapLookup_mapSet, if_pos rfl, hs]
    | error e =>
      rw [hc] at hs
      dsimp only at hs ⊢
      by_cases hr : shouldRetrySessionWithoutToolkitFilters e
          (buildSessionConfig cfg (normalizeConnectedAccountsOverride pins))
      · rw [if_pos hr] at hs ⊢
        cases hc2 : bk.createResp (st.created + 1) with
        | ok s2 =>
          rw [hc2] at hs
          dsimp only at hs ⊢
          injection hs with hs
          rw [mapLookup_mapSet, if_pos rfl, hs]
        | error e2 =>
          rw [hc2] at hs
          dsimp only at hs
          exact Except.noConfusion hs
      · rw [if_neg hr] at hs
        dsimp only at hs
        exact Except.noConfusion hs

theorem getSession_preserves (cfg : ComposioConfig) (bk : Broker) (st : ExecState)
    (uid : String) (pins : Option (List (String × String))) (k : String)
    (h : (mapLookup k st.cache).isSome = true) :
    (mapLookup k (getSession cfg bk st uid pins).st.cache).isSome = true := by
  rw [getSession_eq]
  cases hl : mapLookup (sessionRequestKey uid pins) st.cache with
  | some s0 => exact h
  | none =>
    dsimp only
    cases hc : bk.createResp st.created with
    | ok s1 =>
      dsimp only
      rw [mapLookup_mapSet]
      by_cases hkk : sessionRequestKey uid pins = k
      · rw [if_pos hkk]; rfl
      · rw [if_neg hkk]; exact h
    | error e =>
      dsimp only
      by_cases hr : shouldRetrySessionWithoutToolkitFilters e
          (buildSessionConfig cfg (normalizeConnectedAccountsOverride pins))
      · rw [if_pos hr]
        cases hc2 : bk.createResp (st.created + 1) with
        | ok s2 =>
          dsimp only
          rw [mapLookup_mapSet]
          by_cases hkk : sessionRequestKey uid pins = k
          · rw [if_pos hkk]; rfl
          · rw [if_neg hkk]; exact h
        | error e2 => exact h
      · rw [if_neg hr]; exact h

theorem runGetSessions_bound (cfg : ComposioConfig) (bk : Broker) (k : String) :
    ∀ reqs st,
      ((mapLookup k st.cache).isSome = true →
        successfulCreationsFor k (runGetSessions cfg bk st reqs) = 0) ∧
      successfulCreationsFor k (runGetSessions cfg bk st reqs) ≤ 1 := by
  intro reqs
  induction reqs with
  | nil => intro st; exact ⟨fun _ => rfl, by simp [successfulCreationsFor, runGetSessions]⟩
  | cons req rest ih =>
    intro st
    obtain ⟨uid, pins⟩ := req
    have hsplit : runGetSessions cfg bk st ((uid, pins) :: rest) =
        (if (getSession cfg bk st uid pins).calls = [] then []
         else [(sessionRequestKey uid pins, (getSession cfg bk st uid pins).result.isOk)]) ++
          runGetSessions cfg bk (getSession cfg bk st uid pins).st rest := rfl
    have hzero : (mapLookup k st.cache).isSome = true →
        successfulCreationsFor k (runGetSessions cfg bk st ((uid, pins) :: rest)) = 0 := by
      intro hin
      rw [hsplit]
      unfold successfulCreationsFor
      rw [List.countP_append]
      have htail : successfulCreationsFor k (runGetSessions cfg bk
          (getSession cfg bk st uid pins).st rest) = 0 :=
        (ih (getSession cfg bk st uid pins).st).1
          (getSession_preserves cfg bk st uid pins k hin)
      unfold successfulCreationsFor at htail
      rw [htail]
      by_cases hkk : sessionRequestKey uid pins = k
      · subst hkk
        obtain ⟨s, hs⟩ := Option.isSome_iff_exists.mp hin
        rw [getSession_hit cfg bk st uid pins s hs]
        simp
      · by_cases hcalls : (getSession cfg bk st uid pins).calls = []
        · rw [if_pos hcalls]
          simp
        · rw [if_neg hcalls]
          simp [List.countP_cons, hkk]
    refine ⟨hzero, ?_⟩
    by_cases hin : (mapLookup k st.cache).isSome = true
    · rw [hzero hin]
      omega
    · rw [hsplit]
      unfold successfulCreationsFor
      rw [List.countP_append]
      by_cases hcalls : (getSession cfg bk st uid pins).calls = []
      · rw [if_pos hcalls]
        have := (ih (getSession cfg bk st uid pins).st).2
        unfold successfulCreationsFor at this
        simpa using this
      · rw [if_neg hcalls]
        by_cases hkk : sessionRequestKey uid pins = k
        · cases hok : (getSession cfg bk st uid pins).result with
          | ok s =>
            have hcached := getSession_ok_cached cfg bk st uid pins s hok
            have htail : successfulCreationsFor k (runGetSessions cfg bk
                (getSession cfg bk st uid pins).st rest) = 0 :=
              (ih (getSession cfg bk st uid pins).st).1
                (by rw [← hkk]; simp [hcached])
            unfold successfulCreationsFor at htail
            rw [List.countP_cons, List.countP_nil, htail]
            split <;> simp
          | error e =>
            have htail2 := (ih (getSession cfg bk st uid pins).st).2
            unfold successfulCreationsFor at htail2
            rw [List.countP_cons, List.countP_nil]
            have hfals : (decide (sessionRequestKey uid pins = k) &&
                (Except.error e : Except String Session).isOk) = false := by
              simp [Except.isOk, Except.toBool]
            simp only [Nat.zero_add, hfals, if_false, Bool.false_eq_true]
            simpa using htail2
        · have htail2 := (ih (getSession cfg bk st uid pins).st).2
          unfold successfulCreationsFor at htail2
          rw [List.countP_cons, List.countP_nil]
          have hfals : (decide (sessionRequestKey uid pins = k) &&
              (getSession cfg bk st uid pins).result.isOk) = false := by
            simp [hkk]
          simp only [Nat.zero_add, hfals, if_false, Bool.false_eq_true]
          simpa using htail2

theorem multipleAccountsMessage_contains_id (tk uid : String) (ids : List String)
    (s : String) (hs : s ∈ ids) :
    strContains (multipleAccountsMessage tk uid ids) s = true := by
  unfold multipleAccountsMessage
  exact strContains_middle
    ("Multiple ACTIVE '" ++ tk ++ "' accounts found for user_id '" ++ uid ++ "': ")
    (joinWith ", " ids)
    ". Please provide connected_account_id to choose one explicitly." s
    ((strContains_iff _ _).mpr (joinWith_substring_of_mem _ hs))

theorem multipleAccountsMessage_contains_ask (tk uid : String) (ids : List String) :
    strContains (multipleAccountsMessage tk uid ids)
      "Please provide connected_account_id" = true := by
  unfold multipleAccountsMessage
  exact strContains_append_right _ _ _ (by decide)

/-! ## Claim C4: toolkit allow/block policy -/

/-- C4: for every toolkit with a nonempty normalized slug,
`isToolkitAllowed` returns true iff the toolkit is not block-listed and
(no allow-list is configured or the toolkit is allow-listed); in
particular the block list wins on the intersection and the default with
no allow-list is allow. -/
theorem isToolkitAllowed_spec (cfg : ComposioConfig) (t : String)
    (h : normalizeToolkitSlug t ≠ "") :
    isToolkitAllowed cfg t = true ↔
      (normalizeToolkitSlug t ∉ cfg.blockedToolkits ∧
        (cfg.allowedToolkits = [] ∨ normalizeToolkitSlug t ∈ cfg.allowedToolkits)) := by
  unfold isToolkitAllowed
  simp only [if_neg h]
  by_cases hb : cfg.blockedToolkits.contains (normalizeToolkitSlug t)
  · simp [hb, List.elem_iff.mp hb]
  · by_cases ha : cfg.allowedToolkits = []
    · simp [hb, ha, fun hh => hb (List.elem_iff.mpr hh)]
    · simp [hb, ha, List.elem_iff, fun hh => hb (List.elem_iff.mpr hh)]

/-- Witness for C4: `github` is in both lists of `filterConfig` and is denied. -/
theorem isToolkitAllowed_spec_witness :
    normalizeToolkitSlug "github" ≠ "" ∧
      (isToolkitAllowed filterConfig "github" = true ↔
        (normalizeToolkitSlug "github" ∉ filterConfig.blockedToolkits ∧
          (filterConfig.allowedToolkits = [] ∨
            normalizeToolkitSlug "github" ∈ filterConfig.allowedToolkits))) :=
  ⟨by decide, isToolkitAllowed_spec filterConfig "github" (by decide)⟩

/-! ## Claim C5: read-only mode and the tool allow-list -/

/-- C5 counterexample: with a configured tool allow-list that does not
hold the probed slug, the read-only denial is pre-empted by the
allow-list denial, whose message does not mention `readOnlyMode`. -/
theorem executeTool_readOnly_allowlist_cex :
    (executeTool readOnlyAllowConfig okBroker emptyState "GMAIL_DELETE_EMAIL" []
        (some "alice") none).result =
      .ok { success := false, data := none
            error := some "Tool 'GMAIL_DELETE_EMAIL' is not in allowedToolSlugs" } ∧
    strContains "Tool 'GMAIL_DELETE_EMAIL' is not in allowedToolSlugs" "readOnlyMode" = false ∧
    (executeTool readOnlyAllowConfig okBroker emptyState "GMAIL_DELETE_EMAIL" []
        (some "alice") none).calls = [] :=
  ⟨rfl, by decide, rfl⟩

/-- C5 (amended): when read-only mode is on, no tool allow-list is
configured and the (already normalized) slug is not block-listed but has
a destructive token, `executeTool` denies with the read-only message
(mentioning `readOnlyMode` and the allow-list override) without any
remote call; adding the slug to `allowedToolSlugs` lifts the read-only
restriction. -/
theorem executeTool_readOnly_blocks (cfg : ComposioConfig) (bk : Broker) (st : ExecState)
    (slug : String) (args : Args) (uo ao : Option String)
    (hro : cfg.readOnlyMode = true)
    (hallow : cfg.allowedToolSlugs = [])
    (hblock : normalizeToolSlug slug ∉ cfg.blockedToolSlugs)
    (hnorm : normalizeToolSlug slug = slug)
    (hne : slug ≠ "")
    (hdes : isLikelyDestructiveToolSlug slug = true) :
    executeTool cfg bk st slug args uo ao =
      { result := .ok { success := false, data := none, error := some (readOnlyBlockMessage slug) }
        st := st, calls := [] } ∧
    strContains (readOnlyBlockMessage slug) "readOnlyMode" = true ∧
    strContains (readOnlyBlockMessage slug) "allowedToolSlugs" = true ∧
    getToolSlugRestrictionError { cfg with allowedToolSlugs := [slug] } slug = none := by
  rw [hnorm] at hblock
  have hbc : cfg.blockedToolSlugs.contains slug = false := by
    cases hcc : cfg.blockedToolSlugs.contains slug
    · rfl
    · exact absurd (List.elem_iff.mp hcc) hblock
  have hrestr : getToolSlugRestrictionError cfg slug = some (readOnlyBlockMessage slug) := by
    unfold getToolSlugRestrictionError
    rw [hnorm]
    simp [hne, hallow, hblock, hro, hdes]
  refine ⟨?_, ?_, ?_, ?_⟩
  · simp only [executeTool, hnorm, hrestr]
  · unfold readOnlyBlockMessage
    exact strContains_middle _ _ _ _ (by decide)
  · exact strContains_append_right _ _ _ (by decide)
  · unfold getToolSlugRestrictionError
    rw [hnorm]
    simp [hne, hblock, hro]

/-- Witness for C5: `GMAIL_DELETE_EMAIL` under `readOnlyConfig`. -/
theorem executeTool_readOnly_blocks_witness :
    executeTool readOnlyConfig okBroker emptyState "GMAIL_DELETE_EMAIL" []
        (some "alice") none =
      { result := .ok
          { success := false, data := none
            error := some (readOnlyBlockMessage "GMAIL_DELETE_EMAIL") }
        st := emptyState, calls := [] } :=
  (executeTool_readOnly_blocks readOnlyConfig okBroker emptyState "GMAIL_DELETE_EMAIL" []
    (some "alice") none rfl rfl (by decide) (by decide) (by decide) (by decide)).1

/-! ## Claim C1: the scope argument -/

/-- C1 counterexample: `executeTool` with the scope omitted does not fail
fast; it silently runs under the scope `"default"`, performs remote
calls, and succeeds. -/
theorem executeTool_omitted_scope_cex :
    (executeTool plainConfig okBroker emptyState "GMAIL_FETCH_EMAILS" [] none none).result =
      .ok { success := true, data := some (.vstr "messages"), error := none } ∧
    RemoteCall.createSession "default" none ∈
      (executeTool plainConfig okBroker emptyState "GMAIL_FETCH_EMAILS" [] none none).calls :=
  ⟨rfl, by decide⟩

/-- C1 (amended): the scope argument is optional; an omitted scope is
silently replaced through `getUserId` by `config.defaultUserId`, or by
the literal `"default"` when none is configured, and the operation
proceeds under that substituted scope (shown for `executeTool` and
`disconnectToolkit`; the other public operations call the same
`getUserId`). No configuration error is raised. -/
theorem executeTool_missing_scope_defaults (cfg : ComposioConfig) (bk : Broker)
    (st : ExecState) (slug : String) (args : Args) (ao : Option String) :
    executeTool cfg bk st slug args none ao =
      executeTool cfg bk st slug args (some (getUserId cfg none)) ao ∧
    getUserId cfg none ≠ "" ∧
    (cfg.defaultUserId = none → getUserId cfg none = "default") ∧
    disconnectToolkit cfg bk st slug none =
      disconnectToolkit cfg bk st slug (some (getUserId cfg none)) := by
  have hne : getUserId cfg none ≠ "" := by
    unfold getUserId orFalsyStr
    cases cfg.defaultUserId with
    | none => simp
    | some s => by_cases hs : s = "" <;> simp [hs]
  have huid : getUserId cfg (some (getUserId cfg none)) = getUserId cfg none := by
    show orFalsyStr (some (getUserId cfg none)) (orFalsyStr cfg.defaultUserId "default") =
      getUserId cfg none
    unfold orFalsyStr
    simp [hne]
  refine ⟨?_, hne, ?_, ?_⟩
  · unfold executeTool
    rw [huid]
  · intro hd
    unfold getUserId orFalsyStr
    rw [hd]
  · unfold disconnectToolkit
    rw [huid]

/-- Witness for C1: under `plainConfig` the omitted scope becomes `"default"`. -/
theorem executeTool_missing_scope_defaults_witness :
    executeTool plainConfig okBroker emptyState "GMAIL_FETCH_EMAILS" [] none none =
      executeTool plainConfig okBroker emptyState "GMAIL_FETCH_EMAILS" []
        (some (getUserId plainConfig none)) none ∧
    getUserId plainConfig none = "default" :=
  ⟨(executeTool_missing_scope_defaults plainConfig okBroker emptyState
      "GMAIL_FETCH_EMAILS" [] none).1,
    (executeTool_missing_scope_defaults plainConfig okBroker emptyState
      "GMAIL_FETCH_EMAILS" [] none).2.2.1 rfl⟩

/-! ## Claim C2: the no-throw boundary of `executeTool` -/

/-- C2 counterexample: a broker whose session creation throws makes
`executeTool` throw (the exception escapes the public boundary instead of
becoming a `success := false` result). -/
theorem executeTool_session_throw_cex :
    (executeTool plainConfig throwCreateBroker emptyState "GMAIL_FETCH_EMAILS" []
        (some "alice") none).result = .error "session create boom" :=
  rfl

/-- C2 (amended): `executeTool` returns a `ToolExecutionResult` whenever
account resolution does not throw and session creation does not throw;
within the meta-execute phase a thrown broker exception is wrapped into a
`success := false` result carrying the exception's message. (Exceptions
thrown while listing active accounts or creating the session propagate,
as the counterexample shows.) -/
theorem executeTool_noThrow_after_session (cfg : ComposioConfig) (bk : Broker)
    (st : ExecState) (slug : String) (args : Args) (uo ao : Option String)
    (hres : ∀ e, (resolveConnectedAccountForExecution cfg bk
        (normalizeToolkitSlug ((splitChar '_' (normalizeToolSlug slug)).headD ""))
        (getUserId cfg uo) ao).1 ≠ .thrown e)
    (hsess : ∀ pins, (getSession cfg bk st (getUserId cfg uo) pins).result.isOk = true) :
    (executeTool cfg bk st slug args uo ao).result.isOk = true ∧
    (∀ uid nslug accountId session e,
      bk.metaResp session.sessionId nslug args = .error e →
        (executeToolMetaPhase bk uid nslug args accountId session).1 =
          { success := false, data := none, error := some e }) := by
  constructor
  · unfold executeTool
    dsimp only
    split
    · rfl
    · split
      · rfl
      · split
        next e heq => exact absurd heq (hres e)
        next msg heq => rfl
        next accountId heq =>
          cases accountId with
          | none =>
            dsimp only
            split
            next e hse =>
              have hh := hsess none
              rw [hse] at hh
              exact Bool.noConfusion hh
            next session hse => rfl
          | some id =>
            dsimp only
            by_cases hid : id = ""
            · subst hid
              rw [if_neg (show ¬(("" : String) ≠ "") by simp)]
              split
              next e hse =>
                have hh := hsess none
                rw [hse] at hh
                exact Bool.noConfusion hh
              next session hse => rfl
            · rw [if_pos hid]
              split
              next e hse =>
                have hh := hsess (some
                  [((normalizeToolkitSlug ((splitChar '_' (normalizeToolSlug slug)).headD "")), id)])
                rw [hse] at hh
                exact Bool.noConfusion hh
              next session hse => rfl
  · intro uid nslug accountId session e hmeta
    unfold executeToolMetaPhase
    rw [hmeta]

/-- Witness for C2: the healthy fixture broker satisfies both premises. -/
theorem executeTool_noThrow_after_session_witness :
    (executeTool plainConfig okBroker emptyState "GMAIL_FETCH_EMAILS" []
        (some "alice") none).result.isOk = true :=
  (executeTool_noThrow_after_session plainConfig okBroker emptyState
    "GMAIL_FETCH_EMAILS" [] (some "alice") none
    (fun _ h => ResolveOutcome.noConfusion h)
    (fun _ => rfl)).1

/-! ## Claim C3: explicit-account resolution -/

/-- C3 counterexample: the broker reports the explicit account as owned
by `"mallory"`, yet resolution for the caller scope `"alice"` accepts the
pin with no owner check and no fail-closed listing (the only remote call
is the account fetch). -/
theorem resolveExplicitAccount_foreign_owner_cex :
    foreignOwnerBroker.getAccountResp "ca_explicit" = .ok foreignOwnerAccount ∧
    foreignOwnerAccount.ownerUserId = some "mallory" ∧
    resolveConnectedAccountForExecution plainConfig foreignOwnerBroker
        "gmail" "alice" (some "ca_explicit") =
      (.ok (some "ca_explicit"), [.fetchAccount "ca_explicit"]) :=
  ⟨rfl, rfl, rfl⟩

/-- C3 (amended): with an explicit (trimmed, nonempty) account id the
resolver fetches the account and errors when the fetch throws, when a
reported toolkit differs from the tool's, or when a reported status is
not ACTIVE; in every other case — regardless of the account's reported
owner, and with an unreported toolkit or status accepted fail-open — it
returns the pinned id, performing no listing call. -/
theorem resolveExplicitAccount_checks (cfg : ComposioConfig) (bk : Broker)
    (toolkit uid id : String) (htrim : strTrim id = id) (hne : id ≠ "") :
    (∀ e, bk.getAccountResp id = .error e →
      resolveConnectedAccountForExecution cfg bk toolkit uid (some id) =
        (.err ("Invalid connected_account_id '" ++ id ++ "': " ++ e), [.fetchAccount id])) ∧
    (∀ acc, bk.getAccountResp id = .ok acc →
      normalizeToolkitSlug (acc.toolkitSlug.getD "") ≠ "" →
      normalizeToolkitSlug (acc.toolkitSlug.getD "") ≠ normalizeToolkitSlug toolkit →
      resolveConnectedAccountForExecution cfg bk toolkit uid (some id) =
        (.err ("Connected account '" ++ id ++ "' belongs to toolkit '" ++
            normalizeToolkitSlug (acc.toolkitSlug.getD "") ++ "', but tool '" ++
            normalizeToolkitSlug toolkit ++ "' was requested."), [.fetchAccount id])) ∧
    (∀ acc, bk.getAccountResp id = .ok acc →
      (normalizeToolkitSlug (acc.toolkitSlug.getD "") = "" ∨
        normalizeToolkitSlug (acc.toolkitSlug.getD "") = normalizeToolkitSlug toolkit) →
      strUpper (acc.statusVal.getD "") ≠ "" →
      strUpper (acc.statusVal.getD "") ≠ "ACTIVE" →
      resolveConnectedAccountForExecution cfg bk toolkit uid (some id) =
        (.err ("Connected account '" ++ id ++ "' is '" ++ strUpper (acc.statusVal.getD "") ++
            "', not ACTIVE."), [.fetchAccount id])) ∧
    (∀ acc, bk.getAccountResp id = .ok acc →
      (normalizeToolkitSlug (acc.toolkitSlug.getD "") = "" ∨
        normalizeToolkitSlug (acc.toolkitSlug.getD "") = normalizeToolkitSlug toolkit) →
      (strUpper (acc.statusVal.getD "") = "" ∨ strUpper (acc.statusVal.getD "") = "ACTIVE") →
      resolveConnectedAccountForExecution cfg bk toolkit uid (some id) =
        (.ok (some id), [.fetchAccount id])) := by
  have hgo : ∀ r, bk.getAccountResp id = r →
      resolveConnectedAccountForExecution cfg bk toolkit uid (some id) =
        (match r with
         | .error e =>
            (.err ("Invalid connected_account_id '" ++ id ++ "': " ++ e), [.fetchAccount id])
         | .ok account =>
            let accountToolkit := normalizeToolkitSlug (account.toolkitSlug.getD "")
            let accountStatus := strUpper (account.statusVal.getD "")
            if accountToolkit ≠ "" && accountToolkit ≠ normalizeToolkitSlug toolkit then
              (.err ("Connected account '" ++ id ++ "' belongs to toolkit '" ++ accountToolkit ++
                  "', but tool '" ++ normalizeToolkitSlug toolkit ++ "' was requested."),
                [.fetchAccount id])
            else if accountStatus ≠ "" && accountStatus ≠ "ACTIVE" then
              (.err ("Connected account '" ++ id ++ "' is '" ++ accountStatus ++ "', not ACTIVE."),
                [.fetchAccount id])
            else (.ok (some id), [.fetchAccount id])) := by
    intro r hr
    unfold resolveConnectedAccountForExecution
    dsimp only
    simp only [Option.map_some', Option.getD_some, htrim]
    rw [if_pos hne, hr]
  refine ⟨?_, ?_, ?_, ?_⟩
  · intro e he
    rw [hgo _ he]
  · intro acc hacc hatk hne2
    rw [hgo _ hacc]
    dsimp only
    rw [if_pos (by simp [hatk, hne2])]
  · intro acc hacc hator hst hstA
    rw [hgo _ hacc]
    dsimp only
    rw [if_neg (by rcases hator with h | h <;> simp [h]), if_pos (by simp [hst, hstA])]
  · intro acc hacc hator hstor
    rw [hgo _ hacc]
    dsimp only
    rw [if_neg (by rcases hator with h | h <;> simp [h]),
      if_neg (by rcases hstor with h | h <;> simp [h])]

/-- Witness for C3: a matching ACTIVE gmail account is pinned. -/
theorem resolveExplicitAccount_checks_witness :
    resolveConnectedAccountForExecution plainConfig okBroker "gmail" "alice"
        (some "ca_explicit") =
      (.ok (some "ca_explicit"), [.fetchAccount "ca_explicit"]) :=
  (resolveExplicitAccount_checks plainConfig okBroker "gmail" "alice" "ca_explicit"
      (by decide) (by decide)).2.2.2
    { statusVal := some "ACTIVE", toolkitSlug := some "gmail", ownerUserId := none }
    rfl (Or.inr (by decide)) (Or.inr (by decide))

/-! ## Claim C6: resolution over the ACTIVE-account listing -/

/-- C6: with no explicit account id, resolution over the listing of
ACTIVE accounts yields no pin and no error on zero matches, the unique id
on one match, and on two or more matches an ambiguity error whose message
lists every candidate id and asks for an explicit
`connected_account_id` — never silently picking one. -/
theorem resolveAccount_listing_spec (cfg : ComposioConfig) (bk : Broker)
    (toolkit uid : String) (L : List ConnectedAccountSummary)
    (hlist : (listConnectedAccounts cfg bk (some [normalizeToolkitSlug toolkit])
        (some [uid]) (some ["ACTIVE"])).result = .ok L) :
    (L = [] → (resolveConnectedAccountForExecution cfg bk toolkit uid none).1 = .ok none) ∧
    (∀ a, L = [a] →
      (resolveConnectedAccountForExecution cfg bk toolkit uid none).1 = .ok (some a.id)) ∧
    (2 ≤ L.length →
      (resolveConnectedAccountForExecution cfg bk toolkit uid none).1 =
        .err (multipleAccountsMessage (normalizeToolkitSlug toolkit) uid
          (L.map (fun a => a.id))) ∧
      (∀ a ∈ L, strContains (multipleAccountsMessage (normalizeToolkitSlug toolkit) uid
          (L.map (fun a => a.id))) a.id = true) ∧
      strContains (multipleAccountsMessage (normalizeToolkitSlug toolkit) uid
          (L.map (fun a => a.id))) "Please provide connected_account_id" = true) := by
  have hgo : resolveConnectedAccountForExecution cfg bk toolkit uid none =
      (if L.length ≤ 1 then
        (.ok ((L.head?).map (fun a => a.id)),
          (listConnectedAccounts cfg bk (some [normalizeToolkitSlug toolkit]) (some [uid])
            (some ["ACTIVE"])).calls)
      else
        (.err (multipleAccountsMessage (normalizeToolkitSlug toolkit) uid
            (L.map (fun a => a.id))),
          (listConnectedAccounts cfg bk (some [normalizeToolkitSlug toolkit]) (some [uid])
            (some ["ACTIVE"])).calls)) := by
    unfold resolveConnectedAccountForExecution
    dsimp only
    simp only [Option.map_none', Option.getD_none]
    rw [if_neg (by simp), hlist]
  refine ⟨?_, ?_, ?_⟩
  · intro hL
    subst hL
    rw [hgo, if_pos ((by decide : ([] : List ConnectedAccountSummary).length ≤ 1))]
    rfl
  · intro a hL
    subst hL
    rw [hgo, if_pos ((by simp : ([a] : List ConnectedAccountSummary).length ≤ 1))]
    rfl
  · intro hlen
    refine ⟨?_, ?_, ?_⟩
    · rw [hgo, if_neg ((by omega : ¬(L.length ≤ 1)))]
    · intro a ha
      exact multipleAccountsMessage_contains_id _ _ _ _ (List.mem_map_of_mem _ ha)
    · exact multipleAccountsMessage_contains_ask _ _ _

/-- Witness for C6: two ACTIVE gmail accounts produce the ambiguity error. -/
theorem resolveAccount_listing_spec_witness :
    (resolveConnectedAccountForExecution plainConfig twoAccountBroker "gmail" "alice" none).1 =
      .err (multipleAccountsMessage "gmail" "alice" ["ca_1", "ca_2"]) :=
  ((resolveAccount_listing_spec plainConfig twoAccountBroker "gmail" "alice"
      [{ id := "ca_1", toolkit := "gmail", userId := some "alice", status := some "ACTIVE" },
       { id := "ca_2", toolkit := "gmail", userId := some "alice", status := some "ACTIVE" }]
      rfl).2.2 (by decide)).1

/-! ## Claim C9: the hinted-identifier retry -/

/-- C9 counterexample: an error text with two backtick-quoted literals
still triggers the hinted retry (the code takes the first regex match, it
does not require exactly one literal): the retry call is issued with the
first literal substituted. -/
theorem hintedRetry_two_literals_cex :
    countBacktickLiterals doubleHintText.data = 2 ∧
    tryHintedIdentifierRetry okBroker "pg-user" "POSTHOG_TOOL"
        [("uuid", .vstr "wrong-uuid")] none (some doubleHintText) none none =
      (some { success := true, data := some (.vstr "direct"), error := none },
        [.directExecute "POSTHOG_TOOL" "pg-user" none [("uuid", .vstr "@me")]]) :=
  ⟨by decide, rfl⟩

/-- C9 (amended): the hinted retry runs exactly when the combined error
text matches the allowed-to-access phrasing and its first backtick-quoted
literal (trimmed) is nonempty, at most 64 characters and whitespace-free,
and the argument substitution succeeds: with exactly one string-valued
field the literal replaces that field (unless it already equals it, which
aborts); with zero string fields it is injected into the single field of
a "following fields are missing" fragment; two or more string fields, or
not exactly one missing field, abort with no retry call. Additional
backtick literals beyond the first do not abort. -/
theorem hintedRetry_spec (bk : Broker) (uid slug : String) (args : Args)
    (acc : Option String) (me : Option String) (res : Option (List MetaItem))
    (ae : Option String) :
    ((tryHintedIdentifierRetry bk uid slug args acc me res ae).1.isSome = true ↔
      (shouldRetryFromServerHint (buildCombinedErrorText me res ae) = true ∧
        ∃ hint retryArgs,
          extractServerHintLiteral (buildCombinedErrorText me res ae) = some hint ∧
          buildRetryArgsFromHint args (buildCombinedErrorText me res ae) hint =
            some retryArgs)) ∧
    ((tryHintedIdentifierRetry bk uid slug args acc me res ae).1 = none →
      (tryHintedIdentifierRetry bk uid slug args acc me res ae).2 = []) ∧
    (∀ r, (tryHintedIdentifierRetry bk uid slug args acc me res ae).1 = some r →
      ∃ hint retryArgs,
        extractServerHintLiteral (buildCombinedErrorText me res ae) = some hint ∧
        buildRetryArgsFromHint args (buildCombinedErrorText me res ae) hint = some retryArgs ∧
        tryHintedIdentifierRetry bk uid slug args acc me res ae =
          (some (executeDirectTool bk slug uid retryArgs acc).1,
            [.directExecute slug uid acc retryArgs])) ∧
    (∀ t hint kv cur, stringEntriesOf args = [kv] → kv.2 = .vstr cur →
      buildRetryArgsFromHint args t hint =
        (if cur = hint then none else some (setArg args kv.1 (.vstr hint)))) ∧
    (∀ t hint, stringEntriesOf args = [] →
      buildRetryArgsFromHint args t hint =
        (extractSingleMissingField t).map (fun f => setArg args f (.vstr hint))) ∧
    (∀ t hint, 2 ≤ (stringEntriesOf args).length →
      buildRetryArgsFromHint args t hint = none) := by
  have hgo : tryHintedIdentifierRetry bk uid slug args acc me res ae =
      (if !shouldRetryFromServerHint (buildCombinedErrorText me res ae) then (none, [])
       else match extractServerHintLiteral (buildCombinedErrorText me res ae) with
        | none => (none, [])
        | some hint =>
          match buildRetryArgsFromHint args (buildCombinedErrorText me res ae) hint with
          | none => (none, [])
          | some retryArgs =>
            (some (executeDirectTool bk slug uid retryArgs acc).1,
              [.directExecute slug uid acc retryArgs])) := by
    unfold tryHintedIdentifierRetry
    dsimp only
    split
    · rfl
    · split
      · rfl
      · split
        · rfl
        · unfold executeDirectTool
          split <;> rfl
  refine ⟨?_, ?_, ?_, ?_, ?_, ?_⟩
  · constructor
    · intro h
      rw [hgo] at h
      by_cases hs : shouldRetryFromServerHint (buildCombinedErrorText me res ae)
      · cases he : extractServerHintLiteral (buildCombinedErrorText me res ae) with
        | none => rw [he] at h; simp [hs] at h
        | some hint =>
          cases hb : buildRetryArgsFromHint args (buildCombinedErrorText me res ae) hint with
          | none => rw [he] at h; simp [hs, hb] at h
          | some ra => exact ⟨hs, hint, ra, rfl, hb⟩
      · simp [hs] at h
    · rintro ⟨hs, hint, ra, he, hb⟩
      rw [hgo]
      simp [hs, he, hb]
  · intro h1
    rw [hgo] at h1 ⊢
    by_cases hs : shouldRetryFromServerHint (buildCombinedErrorText me res ae)
    · cases he : extractServerHintLiteral (buildCombinedErrorText me res ae) with
      | none => simp [hs, he]
      | some hint =>
        cases hb : buildRetryArgsFromHint args (buildCombinedErrorText me res ae) hint with
        | none => simp [hs, he, hb]
        | some ra =>
          exfalso
          rw [he] at h1
          simp [hs, hb] at h1
    · simp [hs]
  · intro r h1
    rw [hgo] at h1
    by_cases hs : shouldRetryFromServerHint (buildCombinedErrorText me res ae)
    · cases he : extractServerHintLiteral (buildCombinedErrorText me res ae) with
      | none => exfalso; rw [he] at h1; simp [hs] at h1
      | some hint =>
        cases hb : buildRetryArgsFromHint args (buildCombinedErrorText me res ae) hint with
        | none => exfalso; rw [he] at h1; simp [hs, hb] at h1
        | some ra =>
          refine ⟨hint, ra, rfl, hb, ?_⟩
          rw [hgo]
          simp [hs, he, hb]
    · exfalso; simp [hs] at h1
  · intro t hint kv cur hfil hv
    unfold buildRetryArgsFromHint
    rw [hfil]
    dsimp only
    rw [hv]
  · intro t hint hfil
    unfold buildRetryArgsFromHint
    rw [hfil]
    cases hm : extractSingleMissingField t <;> simp [hm]
  · intro t hint hlen
    unfold buildRetryArgsFromHint
    cases hfil : stringEntriesOf args with
    | nil => simp [hfil] at hlen
    | cons kv rest =>
      cases rest with
      | nil => simp [hfil] at hlen
      | cons kv2 rest2 => rfl

/-- Witness for C9: the single-literal PostHog error triggers the retry. -/
theorem hintedRetry_spec_witness :
    (tryHintedIdentifierRetry okBroker "pg-user" "POSTHOG_TOOL"
        [("uuid", .vstr "wrong-uuid")] none (some posthogHintText) none none).1.isSome = true :=
  ((hintedRetry_spec okBroker "pg-user" "POSTHOG_TOOL"
      [("uuid", .vstr "wrong-uuid")] none (some posthogHintText) none none).1).mpr
    ⟨by decide, "@me", [("uuid", .vstr "@me")], by decide, by decide⟩

/-! ## Claim C7: the session cache -/

/-- C7: a second `getSession` call with the same scope and the same pin
map up to normalization and pin order hits the cache (no creation call,
the cached session returned); and over any run of `getSession` requests
each distinct cache key triggers at most one successful remote
creation. -/
theorem getSession_cache_spec (cfg : ComposioConfig) (bk : Broker) (st : ExecState)
    (uid : String) (p1 p2 : Option (List (String × String))) (s : Session)
    (hequiv : PinsEquiv p1 p2)
    (hok : (getSession cfg bk st uid p1).result = .ok s) :
    getSession cfg bk (getSession cfg bk st uid p1).st uid p2 =
      { result := .ok s, st := (getSession cfg bk st uid p1).st, calls := [] } ∧
    (∀ reqs st0 k, successfulCreationsFor k (runGetSessions cfg bk st0 reqs) ≤ 1) := by
  constructor
  · have hcached := getSession_ok_cached cfg bk st uid p1 s hok
    exact getSession_hit cfg bk _ uid p2 s
      (by rw [← sessionRequestKey_equiv uid hequiv]; exact hcached)
  · intro reqs st0 k
    exact (runGetSessions_bound cfg bk k reqs st0).2

/-- Witness for C7: the same pins with different casing, spacing and
order hit the cache on the second call. -/
theorem getSession_cache_spec_witness :
    getSession plainConfig okBroker
        (getSession plainConfig okBroker emptyState "alice"
          (some [("Gmail ", "ca1"), ("sentry", "ca2")])).st "alice"
        (some [("sentry", "ca2"), ("gmail", "ca1")]) =
      { result := .ok { sessionId := "test-session-123" }
        st := (getSession plainConfig okBroker emptyState "alice"
          (some [("Gmail ", "ca1"), ("sentry", "ca2")])).st
        calls := [] } :=
  (getSession_cache_spec plainConfig okBroker emptyState "alice"
    (some [("Gmail ", "ca1"), ("sentry", "ca2")])
    (some [("sentry", "ca2"), ("gmail", "ca1")])
    { sessionId := "test-session-123" }
    (List.Perm.swap ("sentry", "ca2") ("gmail", "ca1") [])
    rfl).1

/-! ## Claim C8: session-creation retry without toolkit filters -/

/-- C8: when session creation fails on a cache miss, the retry (with the
`toolkits` directive removed and every other directive — account pins,
tags, tool-disable map — kept) happens exactly once, and only when the
config had a nonempty toolkit-enable list and the lowercased error holds
both trigger phrases; any other creation error propagates after the
single creation call. -/
theorem getSession_retry_without_toolkits (cfg : ComposioConfig) (bk : Broker)
    (st : ExecState) (uid : String) (pins : Option (List (String × String)))
    (sc : Option SessionConfig) (e : String)
    (hsc : buildSessionConfig cfg (normalizeConnectedAccountsOverride pins) = sc)
    (hmiss : mapLookup (sessionRequestKey uid pins) st.cache = none)
    (hfail : bk.createResp st.created = .error e) :
    (∀ l, scToolkits sc = some (.enable l) → l ≠ [] →
      strContains (strLower e) "require auth configs but none exist" = true →
      strContains (strLower e) "please specify them in auth_configs" = true →
      (getSession cfg bk st uid pins).calls =
        [.createSession uid sc, .createSession uid (removeToolkitsDirective sc)] ∧
      scToolkits (removeToolkitsDirective sc) = none ∧
      scConnectedAccounts (removeToolkitsDirective sc) = scConnectedAccounts sc ∧
      scTags (removeToolkitsDirective sc) = scTags sc ∧
      scTools (removeToolkitsDirective sc) = scTools sc) ∧
    (shouldRetrySessionWithoutToolkitFilters e sc = false →
      getSession cfg bk st uid pins =
        { result := .error e, st := { cache := st.cache, created := st.created + 1 }
          calls := [.createSession uid sc] }) := by
  constructor
  · intro l hl hlne h1 h2
    obtain ⟨sc0, rfl⟩ : ∃ sc0, sc = some sc0 := by
      cases sc with
      | none => exact absurd hl (by simp [scToolkits])
      | some sc0 => exact ⟨sc0, rfl⟩
    have hl0 : sc0.toolkits = some (.enable l) := hl
    have hretry : shouldRetrySessionWithoutToolkitFilters e (some sc0) = true := by
      unfold shouldRetrySessionWithoutToolkitFilters
      dsimp only
      rw [hl0]
      simp [hlne, h1, h2]
    refine ⟨?_, ?_, ?_, ?_, ?_⟩
    · rw [getSession_eq, hmiss]
      dsimp only
      rw [hsc, hfail]
      dsimp only
      rw [if_pos hretry]
      cases hc2 : bk.createResp (st.created + 1) <;> rfl
    · unfold removeToolkitsDirective
      dsimp only
      split
      · rfl
      · rfl
    · unfold removeToolkitsDirective
      dsimp only
      split
      next hall =>
        have := congrArg SessionConfig.connectedAccounts hall
        simpa [scConnectedAccounts] using this.symm
      next => rfl
    · unfold removeToolkitsDirective
      dsimp only
      split
      next hall =>
        have := congrArg SessionConfig.tags hall
        simpa [scTags] using this.symm
      next => rfl
    · unfold removeToolkitsDirective
      dsimp only
      split
      next hall =>
        have := congrArg SessionConfig.tools hall
        simpa [scTools] using this.symm
      next => rfl
  · intro hno
    rw [getSession_eq, hmiss]
    dsimp only
    rw [hsc, hfail]
    dsimp only
    rw [if_neg (by simp [hno])]

theorem retryCfg_sessionConfig :
    buildSessionConfig retryCfg
        (normalizeConnectedAccountsOverride (none : Option (List (String × String)))) =
      some { connectedAccounts := none
             toolkits := some (.enable ["gmail", "posthog"])
             tags := none, tools := none } := by
  decide

/-- Witness for C8: the auth-config error of the test suite causes one
retry with the toolkit-enable filter removed. -/
theorem getSession_retry_without_toolkits_witness :
    (getSession retryCfg retryBroker emptyState "default" none).calls =
      [.createSession "default" (some
        { connectedAccounts := none
          toolkits := some (.enable ["gmail", "posthog"])
          tags := none, tools := none }),
       .createSession "default" none] :=
  ((getSession_retry_without_toolkits retryCfg retryBroker emptyState "default"
      (none : Option (List (String × String)))
      (some { connectedAccounts := none
              toolkits := some (.enable ["gmail", "posthog"])
              tags := none, tools := none })
      authConfigsError retryCfg_sessionConfig rfl rfl).1
    ["gmail", "posthog"] rfl (by decide) (by decide) (by decide)).1

/-! ## Claim C10: session-cache eviction by raw scope prefix -/

/-- C10: after a successful `disconnectToolkit` the session cache keeps
exactly the entries whose key does not start with `uid:` + scope;
because matching is by raw string prefix, every cache key of any scope
that extends the disconnected scope as a string prefix (e.g. `alice2`
after disconnecting `alice`) is evicted too, while non-prefix scopes are
untouched. -/
theorem sessionCache_eviction_by_scope (cfg : ComposioConfig) (bk : Broker) (st : ExecState)
    (toolkit : String) (uo : Option String)
    (hsucc : (disconnectToolkit cfg bk st toolkit uo).1.success = true) :
    (disconnectToolkit cfg bk st toolkit uo).2.1.cache =
      clearUserSessionCache (getUserId cfg uo) st.cache ∧
    (∀ k s, (k, s) ∈ clearUserSessionCache (getUserId cfg uo) st.cache ↔
      ((k, s) ∈ st.cache ∧ strStartsWith k ("uid:" ++ getUserId cfg uo) = false)) ∧
    (∀ uid2 pins, (getUserId cfg uo).data <+: uid2.data →
      strStartsWith (makeSessionCacheKey uid2 pins) ("uid:" ++ getUserId cfg uo) = true) := by
  refine ⟨?_, ?_, ?_⟩
  · unfold disconnectToolkit at hsucc ⊢
    dsimp only at hsucc ⊢
    split at hsucc
    next hA => exact absurd hsucc (by simp)
    next hA =>
      split at hsucc
      next hB => exact absurd hsucc (by simp)
      next hB =>
        split at hsucc
        next e heq => exact absurd hsucc (by simp)
        next accounts heq =>
          split at hsucc
          · exact absurd hsucc (by simp)
          next account =>
            split at hsucc
            next e hdel => exact absurd hsucc (by simp)
            next u hdel => rw [if_neg hA, if_neg hB]
          next a b rest => exact absurd hsucc (by simp)
  · intro k s
    unfold clearUserSessionCache
    simp [List.mem_filter]
  · intro uid2 pins h
    unfold strStartsWith
    rw [prefixCheck_iff]
    cases pins with
    | none =>
      show ("uid:" ++ getUserId cfg uo).data <+: ("uid:" ++ uid2).data
      rw [String.data_append, String.data_append]
      exact (List.prefix_append_right_inj _).mpr h
    | some l =>
      unfold makeSessionCacheKey
      dsimp only
      by_cases hl : l = []
      · rw [if_pos hl]
        rw [String.data_append, String.data_append]
        exact (List.prefix_append_right_inj _).mpr h
      · rw [if_neg hl]
        simp only [String.data_append, List.append_assoc]
        exact (List.prefix_append_right_inj _).mpr (h.trans (List.prefix_append _ _))

/-- Witness for C10: disconnecting gmail for `alice` evicts the cached
sessions of `alice` and of `alice2`, keeping `bob`. -/
theorem sessionCache_eviction_by_scope_witness :
    (disconnectToolkit plainConfig oneAccountBroker
        { cache := [("uid:alice", { sessionId := "s1" }),
                    ("uid:alice2", { sessionId := "s2" }),
                    ("uid:bob", { sessionId := "s3" })]
          created := 0 } "gmail" (some "alice")).2.1.cache =
      clearUserSessionCache "alice"
        [("uid:alice", { sessionId := "s1" }),
         ("uid:alice2", { sessionId := "s2" }),
         ("uid:bob", { sessionId := "s3" })] ∧
    clearUserSessionCache "alice"
        [("uid:alice", { sessionId := "s1" }),
         ("uid:alice2", { sessionId := "s2" }),
         ("uid:bob", { sessionId := "s3" })] =
      [("uid:bob", { sessionId := "s3" })] :=
  ⟨(sessionCache_eviction_by_scope plainConfig oneAccountBroker
      { cache := [("uid:alice", { sessionId := "s1" }),
                  ("uid:alice2", { sessionId := "s2" }),
                  ("uid:bob", { sessionId := "s3" })]
        created := 0 } "gmail" (some "alice") rfl).1,
    by decide⟩

end Composio
